import Mathlib

/-!
Verification development for the prediction-result visualization layer
(`prediction_results.py`): wrappers pairing images with model predictions
(classification / detection / segmentation), exposing draw / show / save.

Modelling conventions:
* numpy pixel buffers live in an explicit `Heap` (a list of flat pixel
  buffers); an image value (`HImg`) carries its shape and the index of its
  buffer in the heap.  `ndarray.copy()` is heap allocation of a fresh buffer
  holding the same data; drawing collaborators write pixels into the buffer
  of the image they are given.
* external collaborators (box renderer, label renderer, segmentation
  overlay, box-format conversion, cv2.putText) are abstracted as functions
  over pixel data, gathered in the `Collab` structure.
* Python floats are modelled as rationals, int() truncation as `pyInt`,
  Python `x or y` falsiness on lists/None as `listOr`.
-/

/-- Flat RGB color triple, as used by the color mapping. -/
abbrev Color := Nat × Nat × Nat

/-- A heap of pixel buffers, modelling numpy array object identity:
each buffer is a flat list of pixel values, addressed by its index. -/
structure Heap where
  bufs : List (List Nat)
deriving DecidableEq

def Heap.length (h : Heap) : Nat := h.bufs.length

def Heap.read (h : Heap) (i : Nat) : List Nat := h.bufs.getD i []

/-- Allocate a fresh buffer (models creating a new ndarray, e.g. `.copy()`,
`np.ones`, `cv2.hconcat`); the new buffer's index is the old heap length. -/
def Heap.alloc (h : Heap) (d : List Nat) : Heap := ⟨h.bufs ++ [d]⟩

/-- Overwrite an existing buffer in place (models in-place pixel mutation of
an ndarray by a drawing collaborator or slice assignment). -/
def Heap.write (h : Heap) (i : Nat) (d : List Nat) : Heap := ⟨h.bufs.set i d⟩

/-- An image value: shape `(height, width, channels)` plus the heap index of
its pixel buffer. -/
structure HImg where
  height : Nat
  width : Nat
  channels : Nat
  buf : Nat
deriving DecidableEq

/-- The arguments of one `draw_bbox` collaborator call: the title is the
class name plus (for prediction boxes, when confidence display is on) the
confidence rounded to 2 decimals, then color, thickness and the four
`int()`-truncated corner coordinates. -/
structure BBoxCall where
  titleName : String
  titleScore : Option Rat
  color : Color
  box_thickness : Option Nat
  x1 : Int
  y1 : Int
  x2 : Int
  y2 : Int
deriving DecidableEq

/-- Modelled from the spec: the external collaborator interfaces (the
drawing primitives of `super_gradients.training.utils.visualization`, box
format conversion, and `cv2.putText`), whose implementations are not part of
the excerpt.  Each renders onto / transforms the pixel data it is given:
`draw_bbox` paints one labelled box, `draw_label` one classification label
with its confidence, `overlay_segmentation` composites a mask given
`(num_classes, alpha, colors, class_names, mask)`, `convert_bboxes` converts
box coordinates `(source_format, image_shape, boxes)`, and `putText` paints a
caption at an `(x, y)` origin. -/
structure Collab where
  draw_bbox : BBoxCall → List Nat → List Nat
  draw_label : String → Rat → List Nat → List Nat
  overlay_segmentation : Nat → Rat → List Color → List String → List (List Nat) → List Nat → List Nat
  convert_bboxes : Option String → Nat × Nat → List (List Rat) → List (List Rat)
  putText : String → Nat × Nat → List Nat → List Nat

/-- Modelled from the spec: `generate_color_mapping(n)` deterministically
produces one RGB triple per class (a sequence of exactly `n` colors). -/
def generate_color_mapping (n : Nat) : List Color :=
  (List.range n).map (fun i => (i, i, i))

/-- Python `x or dflt` for an optional list argument: `None` and the empty
list are falsy and fall back to the default. -/
def listOr {α : Type} (x : Option (List α)) (dflt : List α) : List α :=
  match x with
  | some l => if l.isEmpty then dflt else l
  | none => dflt

/-- Python `int()` on a float: truncation toward zero. -/
def pyInt (q : Rat) : Int := if 0 ≤ q then ⌊q⌋ else -⌊-q⌋

/-- Python `round(x, 2)` (half-away ties are modelled by `round`). -/
def round2 (q : Rat) : Rat := ((round (q * 100) : Int) : Rat) / 100

/-- Embedding of `np.argsort(v)`: the indices `0 .. v.length - 1` ordered by
ascending value. -/
def argsort (v : List Rat) : List Nat :=
  List.insertionSort (fun i j => v.getD i 0 ≤ v.getD j 0) (List.range v.length)

/-- `ClassificationPrediction`: predicted class index and confidence. -/
structure ClassificationPrediction where
  label : Nat
  confidence : Rat
deriving DecidableEq

/-- `DetectionPrediction`: parallel sequences of xyxy boxes, class-index
labels and confidences, plus the source image `(height, width)` shape. -/
structure DetectionPrediction where
  bboxes_xyxy : List (Rat × Rat × Rat × Rat)
  labels : List Int
  confidence : List Rat
  image_shape : Nat × Nat
deriving DecidableEq

/-- `SegmentationPrediction`: per-pixel class-index mask. -/
structure SegmentationPrediction where
  segmentation_map : List (List Nat)
deriving DecidableEq

/-- `ImageClassificationPrediction`: image, classification prediction and
class-name vocabulary. -/
structure ImageClassificationPrediction where
  image : HImg
  prediction : ClassificationPrediction
  class_names : List String
deriving DecidableEq

/-- `ImageDetectionPrediction`: image, detection prediction and class-name
vocabulary. -/
structure ImageDetectionPrediction where
  image : HImg
  prediction : DetectionPrediction
  class_names : List String
deriving DecidableEq

/-- `ImageSegmentationPrediction`: image, segmentation prediction and
class-name vocabulary. -/
structure ImageSegmentationPrediction where
  image : HImg
  prediction : SegmentationPrediction
  class_names : List String
deriving DecidableEq

/-- The `class_ids_to_show` computation of `ImageDetectionPrediction.draw`:
`[i for i, class_name in enumerate(self.class_names) if class_name in
class_names_to_show]`. -/
def classIdsToShow (vocab classNamesToShow : List String) : List Int :=
  ((List.range vocab.length).filter
    (fun i => decide (vocab.getD i "" ∈ classNamesToShow))).map Int.ofNat

/-- The `draw_bbox` arguments built for prediction box `pred_i` in
`ImageDetectionPrediction.draw`: title is class name plus the confidence
rounded to 2 decimals when `show_confidence` is set, color looked up in the
mapping by class id, and the four `int()`-truncated xyxy coordinates. -/
def mkPredCall (p : DetectionPrediction) (classNames : List String)
    (colorMapping : List Color) (boxThickness : Option Nat)
    (showConfidence : Bool) (pred_i : Nat) (class_id : Int) : BBoxCall :=
  let b := p.bboxes_xyxy.getD pred_i (0, 0, 0, 0)
  { titleName := classNames.getD class_id.toNat ""
    titleScore := if showConfidence then some (round2 (p.confidence.getD pred_i 0)) else none
    color := colorMapping.getD class_id.toNat (0, 0, 0)
    box_thickness := boxThickness
    x1 := pyInt b.1
    y1 := pyInt b.2.1
    x2 := pyInt b.2.2.1
    y2 := pyInt b.2.2.2 }

/-- The prediction-box loop of `ImageDetectionPrediction.draw`: iterate the
indices in ascending-confidence order (`np.argsort`), and for each index
whose class id is in `class_ids_to_show` invoke the box renderer on the
accumulated image (generic in the accumulator so the call sequence can be
observed). -/
def predBoxFold {α : Type} (drawB : BBoxCall → α → α) (p : DetectionPrediction)
    (classNames : List String) (idsToShow : List Int) (colorMapping : List Color)
    (boxThickness : Option Nat) (showConfidence : Bool) (init : α) : α :=
  (argsort p.confidence).foldl (fun image pred_i =>
    let class_id := p.labels.getD pred_i 0
    if class_id ∈ idsToShow then
      drawB (mkPredCall p classNames colorMapping boxThickness showConfidence pred_i class_id) image
    else image) init

/-- The subsequence of prediction indices on which the loop of
`ImageDetectionPrediction.draw` actually invokes `draw_bbox`: the
ascending-confidence order restricted to class ids in the display subset. -/
def predCallIdx (p : DetectionPrediction) (idsToShow : List Int) : List Nat :=
  (argsort p.confidence).filter (fun i => decide (p.labels.getD i 0 ∈ idsToShow))

/-- The `draw_bbox` arguments built for ground-truth box `target_idx` in
`ImageDetectionPrediction.draw`: title is the class name only (no
confidence). -/
def mkTargetCall (tbsXyxy : List (List Rat)) (classNames : List String)
    (colorMapping : List Color) (boxThickness : Option Nat)
    (target_idx : Nat) (class_id : Int) : BBoxCall :=
  let e := tbsXyxy.getD target_idx []
  { titleName := classNames.getD class_id.toNat ""
    titleScore := none
    color := colorMapping.getD class_id.toNat (0, 0, 0)
    box_thickness := boxThickness
    x1 := pyInt (e.getD 0 0)
    y1 := pyInt (e.getD 1 0)
    x2 := pyInt (e.getD 2 0)
    y2 := pyInt (e.getD 3 0) }

/-- The ground-truth box loop of `ImageDetectionPrediction.draw`: for each
`target_idx in range(len(target_bboxes_xyxy))` whose class id is in the
display subset, invoke the box renderer on the target image. -/
def targetBoxFold {α : Type} (drawB : BBoxCall → α → α) (tbsXyxy : List (List Rat))
    (tcs : List Int) (classNames : List String) (idsToShow : List Int)
    (colorMapping : List Color) (boxThickness : Option Nat) (init : α) : α :=
  (List.range tbsXyxy.length).foldl (fun timg target_idx =>
    let class_id := tcs.getD target_idx 0
    if class_id ∈ idsToShow then
      drawB (mkTargetCall tbsXyxy classNames colorMapping boxThickness target_idx class_id) timg
    else timg) init

/-- Pixel data of `np.ones((nh, nw, ch), dtype=np.uint8) * 255`. -/
def whiteData (nh nw ch : Nat) : List Nat := List.replicate (nh * nw * ch) 255

/-- The length of the numpy slice `[off : off + len]` over an axis of size
`total` (slices clamp at the end of the axis). -/
def sliceLen (total off len : Nat) : Nat := min total (off + len) - off

/-- Pixel data of the slice assignment
`canvas[top : top + sh, left : left + sw] = sub` on an `(nh, nw, ch)`
canvas. -/
def pasteData (nh nw ch : Nat) (canvas : List Nat) (sh sw : Nat)
    (sub : List Nat) (top left : Nat) : List Nat :=
  (List.range (nh * nw * ch)).map (fun idx =>
    let k := idx % ch
    let x := idx / ch % nw
    let y := idx / ch / nw
    if top ≤ y ∧ y < top + sh ∧ left ≤ x ∧ x < left + sw then
      sub.getD (((y - top) * sw + (x - left)) * ch + k) 0
    else canvas.getD idx 0)

/-- Modelled from the spec: pixel data of `cv2.hconcat` of two equal-height
images of widths `wa` and `wb` (rows interleaved side by side). -/
def hconcatData (hgt wa wb ch : Nat) (d1 d2 : List Nat) : List Nat :=
  (List.range hgt).foldr (fun y acc =>
    ((List.range (wa * ch)).map (fun k => d1.getD (y * (wa * ch) + k) 0)) ++
    ((List.range (wb * ch)).map (fun k => d2.getD (y * (wb * ch) + k) 0)) ++ acc) []

/-- The failure modes of `ImageDetectionPrediction.draw`: the explicit
`ValueError` for display class names outside the vocabulary, and the numpy
broadcast error raised by the canvas slice assignment when the sub-image
does not fit the slice. -/
inductive DrawError where
  | invalidClassNames (invalid : List String) (available : List String)
  | broadcastError
deriving DecidableEq

/-- Embedding of `ImageClassificationPrediction.draw`: copy the image, then
return the label renderer's output for the copy; the `show_confidence`
parameter is accepted but never consulted, and the raw (unrounded)
confidence is forwarded to `draw_label`. -/
def ImageClassificationPrediction.draw (C : Collab) (h : Heap)
    (self : ImageClassificationPrediction) (show_confidence : Bool) : HImg × Heap :=
  let buf := h.length
  let h1 := h.alloc (h.read self.image.buf)
  let h2 := h1.write buf (C.draw_label (self.class_names.getD self.prediction.label "")
    self.prediction.confidence (h1.read buf))
  (⟨self.image.height, self.image.width, self.image.channels, buf⟩, h2)

/-- Embedding of `ImageDetectionPrediction.draw`.  Mirrors the source line
by line: copy the image; default absent ground-truth boxes / class ids to
empty arrays; resolve the display class subset and validate it against the
vocabulary (ValueError listing the invalid names otherwise); convert the
ground-truth boxes to xyxy unless `len(target_bboxes)` is zero;
`plot_targets` iff some converted entry is non-empty; resolve the color
mapping; run the ascending-confidence prediction-box loop on the copy; when
`plot_targets`, draw ground truth on a second copy, build two white
canvases of size `(h + h/8, w + w/20)`, paste each sub-image at offset
(60, 10) (numpy raises a broadcast error when the sub-image does not fit
the clamped slice), caption them at `(int(0.25 * w), 30)` and horizontally
concatenate; otherwise return the predictions copy. -/
def ImageDetectionPrediction.draw (C : Collab) (h : Heap)
    (self : ImageDetectionPrediction) (box_thickness : Option Nat)
    (show_confidence : Bool) (color_mapping : Option (List Color))
    (target_bboxes : Option (List (List Rat))) (target_bboxes_format : Option String)
    (target_class_ids : Option (List Int)) (class_names : Option (List String)) :
    Except DrawError HImg × Heap :=
  let imgBuf := h.length
  let h1 := h.alloc (h.read self.image.buf)
  let tbs := target_bboxes.getD []
  let tcs := target_class_ids.getD []
  let class_names_to_show := listOr class_names self.class_names
  let class_ids_to_show := classIdsToShow self.class_names class_names_to_show
  let invalid := (class_names_to_show.filter (fun n => decide (n ∉ self.class_names))).dedup
  if 0 < invalid.length then
    (.error (.invalidClassNames invalid self.class_names), h1)
  else
    let target_bboxes_xyxy :=
      if tbs.length ≠ 0 then
        C.convert_bboxes target_bboxes_format self.prediction.image_shape tbs
      else tbs
    let plot_targets := target_bboxes_xyxy.any (fun tbbx => 0 < tbbx.length)
    let cm := listOr color_mapping (generate_color_mapping self.class_names.length)
    let h2 := h1.write imgBuf (predBoxFold C.draw_bbox self.prediction self.class_names
      class_ids_to_show cm box_thickness show_confidence (h1.read imgBuf))
    if plot_targets then
      let tBuf := h2.length
      let h3 := h2.alloc (h2.read self.image.buf)
      let h4 := h3.write tBuf (targetBoxFold C.draw_bbox target_bboxes_xyxy tcs
        self.class_names class_ids_to_show cm box_thickness (h3.read tBuf))
      let hgt := self.image.height
      let wid := self.image.width
      let ch := self.image.channels
      let nw := wid + wid / 20
      let nh := hgt + hgt / 8
      if sliceLen nh 60 hgt = hgt ∧ sliceLen nw 10 wid = wid then
        let cBuf := h4.length
        let h5 := h4.alloc (whiteData nh nw ch)
        let ctBuf := h5.length
        let h6 := h5.alloc (whiteData nh nw ch)
        let h7 := h6.write cBuf (pasteData nh nw ch (h6.read cBuf) hgt wid (h6.read imgBuf) 60 10)
        let h8 := h7.write ctBuf (pasteData nh nw ch (h7.read ctBuf) hgt wid (h7.read tBuf) 60 10)
        let h9 := h8.write cBuf (C.putText "Predictions" (wid / 4, 30) (h8.read cBuf))
        let h10 := h9.write ctBuf (C.putText "Ground Truth" (wid / 4, 30) (h9.read ctBuf))
        let rBuf := h10.length
        let h11 := h10.alloc (hconcatData nh nw nw ch (h10.read cBuf) (h10.read ctBuf))
        (.ok ⟨nh, nw + nw, ch, rBuf⟩, h11)
      else (.error .broadcastError, h4)
    else (.ok ⟨self.image.height, self.image.width, self.image.channels, imgBuf⟩, h2)

/-- The effective class-name list of `ImageSegmentationPrediction.draw`:
`class_names = class_names or self.class_names`, then a synthetic
"background" class is prepended when the list has exactly one entry. -/
def resolvedSegClassNames (class_names : Option (List String)) (vocab : List String) :
    List String :=
  let cn := listOr class_names vocab
  if cn.length = 1 then "background" :: cn else cn

/-- The color mapping of `ImageSegmentationPrediction.draw`:
`color_mapping or generate_color_mapping(len(class_names))`, computed after
the background prepend. -/
def resolvedSegColors (color_mapping : Option (List Color)) (cn : List String) : List Color :=
  listOr color_mapping (generate_color_mapping cn.length)

/-- Embedding of `ImageSegmentationPrediction.draw`: copy the image, resolve
the class-name list (prepending "background" for a single class) and the
color mapping, then composite via the segmentation-overlay collaborator
with `num_classes = len(class_names)`. -/
def ImageSegmentationPrediction.draw (C : Collab) (h : Heap)
    (self : ImageSegmentationPrediction) (alpha : Rat)
    (color_mapping : Option (List Color)) (class_names : Option (List String)) :
    HImg × Heap :=
  let buf := h.length
  let h1 := h.alloc (h.read self.image.buf)
  let cn := resolvedSegClassNames class_names self.class_names
  let cm := resolvedSegColors color_mapping cn
  let h2 := h1.write buf (C.overlay_segmentation cn.length alpha cm cn
    self.prediction.segmentation_map (h1.read buf))
  (⟨self.image.height, self.image.width, self.image.channels, buf⟩, h2)

/-- A ground-truth argument to the detection collection: either a single
`np.ndarray` (one per-image array) or a Python list of such arrays. -/
inductive NpArg (α : Type) where
  | arr (a : α)
  | list (l : List α)
deriving DecidableEq

/-- The `isinstance(x, np.ndarray)` normalization of `_check_target_args`:
a single array becomes a one-element list; a list is left as is. -/
def NpArg.normalize {α : Type} : NpArg α → List α
  | .arr a => [a]
  | .list l => l

/-- `ImagesDetectionPrediction`: ordered list of per-image detection
results. -/
structure ImagesDetectionPrediction where
  _images_prediction_lst : List ImageDetectionPrediction

/-- Embedding of `ImagesDetectionPrediction._check_target_args`: the three
ground-truth arguments must be all unset or all set; a single array is
normalized to a one-element sequence; the box and class-id sequences must
have equal length, equal to the number of images; when unset, parallel
sequences of per-image `None` placeholders are synthesized. -/
def ImagesDetectionPrediction._check_target_args (self : ImagesDetectionPrediction)
    (target_bboxes : Option (NpArg (List (List Rat))))
    (target_bboxes_format : Option String)
    (target_class_ids : Option (NpArg (List Int))) :
    Except String (List (Option (List (List Rat))) × List (Option (List Int))) :=
  if ¬ ((target_bboxes = none ∧ target_bboxes_format = none ∧ target_class_ids = none)
      ∨ (target_bboxes ≠ none ∧ target_bboxes_format ≠ none ∧ target_class_ids ≠ none)) then
    .error "target_bboxes, target_bboxes_format, and target_class_ids should either all be None or all not None."
  else
    match target_bboxes.map NpArg.normalize, target_class_ids.map NpArg.normalize with
    | some bl, some cl =>
      if bl.length ≠ cl.length then
        .error ("target_bboxes and target_class_ids lengths should be equal, got: "
          ++ toString bl.length ++ " and " ++ toString cl.length ++ ".")
      else if bl.length ≠ self._images_prediction_lst.length then
        .error ("target_bboxes and target_class_ids lengths should be equal, to the amount of images passed to predict(), got: "
          ++ toString bl.length ++ " and " ++ toString self._images_prediction_lst.length ++ ".")
      else .ok (bl.map some, cl.map some)
    | _, _ =>
      -- mixed some/none combinations are unreachable here: the guard above
      -- already raised; Python then only reaches the target_bboxes-is-None path
      .ok (List.replicate self._images_prediction_lst.length none,
           List.replicate self._images_prediction_lst.length none)

/-- The arguments delivered to one single-item `show` call by
`ImagesDetectionPrediction.show`. -/
structure ShowCall where
  prediction : ImageDetectionPrediction
  box_thickness : Option Nat
  show_confidence : Bool
  color_mapping : Option (List Color)
  target_bboxes : Option (List (List Rat))
  target_bboxes_format : Option String
  target_class_ids : Option (List Int)
  class_names : Option (List String)

/-- The arguments delivered to one single-item `save` call by
`ImagesDetectionPrediction.save`. -/
structure SaveCall where
  output_path : String
  prediction : ImageDetectionPrediction
  box_thickness : Option Nat
  show_confidence : Bool
  color_mapping : Option (List Color)
  target_bboxes : Option (List (List Rat))
  target_bboxes_format : Option String
  target_class_ids : Option (List Int)
  class_names : Option (List String)

/-- Embedding of `ImagesDetectionPrediction.show`: validate the ground-truth
arguments, then zip each image prediction with its per-image ground truth
and delegate to the single-item `show` (the result records the argument
list of each delegated call). -/
def ImagesDetectionPrediction.show (self : ImagesDetectionPrediction)
    (box_thickness : Option Nat) (show_confidence : Bool)
    (color_mapping : Option (List Color))
    (target_bboxes : Option (NpArg (List (List Rat))))
    (target_bboxes_format : Option String)
    (target_class_ids : Option (NpArg (List Int)))
    (class_names : Option (List String)) : Except String (List ShowCall) :=
  match self._check_target_args target_bboxes target_bboxes_format target_class_ids with
  | .error e => .error e
  | .ok (tbs, tcs) =>
    .ok ((self._images_prediction_lst.zip (tbs.zip tcs)).map (fun pt =>
      { prediction := pt.1
        box_thickness := box_thickness
        show_confidence := show_confidence
        color_mapping := color_mapping
        target_bboxes := pt.2.1
        target_bboxes_format := target_bboxes_format
        target_class_ids := pt.2.2
        class_names := class_names }))

/-- Embedding of `ImagesDetectionPrediction.save`: validate the ground-truth
arguments and zip them with the image predictions, then delegate to the
single-item `save` with a position-based file name.  As in the source, the
per-item call passes no target arguments, so they take their `None`
defaults. -/
def ImagesDetectionPrediction.save (self : ImagesDetectionPrediction)
    (output_folder : String) (box_thickness : Option Nat) (show_confidence : Bool)
    (color_mapping : Option (List Color))
    (target_bboxes : Option (NpArg (List (List Rat))))
    (target_bboxes_format : Option String)
    (target_class_ids : Option (NpArg (List Int)))
    (class_names : Option (List String)) : Except String (List SaveCall) :=
  match self._check_target_args target_bboxes target_bboxes_format target_class_ids with
  | .error e => .error e
  | .ok (tbs, tcs) =>
    .ok (((self._images_prediction_lst.zip (tbs.zip tcs)).enum).map (fun ipt =>
      { output_path := output_folder ++ "/pred_" ++ toString ipt.1 ++ ".jpg"
        prediction := ipt.2.1
        box_thickness := box_thickness
        show_confidence := show_confidence
        color_mapping := color_mapping
        target_bboxes := none
        target_bboxes_format := none
        target_class_ids := none
        class_names := class_names }))

/-- `VideoDetectionPrediction`: the remaining items of the single-pass frame
source, plus frame rate and declared frame count. -/
structure VideoDetectionPrediction where
  _images_prediction_gen : List ImageDetectionPrediction
  fps : Int
  n_frames : Nat

/-- The frame loop of `VideoDetectionPrediction.draw`: pull each remaining
element of the single-pass source in order and render it with the per-frame
detection draw (no ground-truth arguments), threading the buffer heap;
returns the rendered frames, the final heap, and the elements left
unconsumed (empty unless a frame draw raised). -/
def videoDrawLoop (C : Collab) (box_thickness : Option Nat) (show_confidence : Bool)
    (color_mapping : Option (List Color)) (class_names : Option (List String)) :
    List ImageDetectionPrediction → Heap →
    Except DrawError (List HImg) × Heap × List ImageDetectionPrediction
  | [], h => (.ok [], h, [])
  | p :: rest, h =>
    match ImageDetectionPrediction.draw C h p box_thickness show_confidence
      color_mapping none none none class_names with
    | (.error e, h1) => (.error e, h1, rest)
    | (.ok frame, h1) =>
      match videoDrawLoop C box_thickness show_confidence color_mapping class_names rest h1 with
      | (.error e, h2, rem) => (.error e, h2, rem)
      | (.ok frames, h2, rem) => (.ok (frame :: frames), h2, rem)

/-- Embedding of consuming `VideoDetectionPrediction.draw` to exhaustion:
the lazy generator applies the per-frame detection draw to each element of
the underlying stream in order; afterwards the single-pass source holds
only what was not consumed. -/
def VideoDetectionPrediction.draw (C : Collab) (h : Heap)
    (self : VideoDetectionPrediction) (box_thickness : Option Nat)
    (show_confidence : Bool) (color_mapping : Option (List Color))
    (class_names : Option (List String)) :
    Except DrawError (List HImg) × Heap × VideoDetectionPrediction :=
  let r := videoDrawLoop C box_thickness show_confidence color_mapping class_names
    self._images_prediction_gen h
  (r.1, r.2.1, { self with _images_prediction_gen := r.2.2 })

theorem Heap.length_alloc (h : Heap) (d : List Nat) : (h.alloc d).length = h.length + 1 := by
  simp [Heap.alloc, Heap.length]

theorem Heap.length_write (h : Heap) (j : Nat) (d : List Nat) :
    (h.write j d).length = h.length := by
  simp [Heap.write, Heap.length]

theorem Heap.read_alloc_of_lt (h : Heap) (d : List Nat) (i : Nat) (hi : i < h.length) :
    (h.alloc d).read i = h.read i := by
  show (h.bufs ++ [d]).getD i [] = h.bufs.getD i []
  exact List.getD_append _ _ _ _ hi

theorem Heap.read_alloc_self (h : Heap) (d : List Nat) : (h.alloc d).read h.length = d := by
  simp [Heap.alloc, Heap.read, Heap.length, List.getD_append_right _ _ _ _ le_rfl]

theorem Heap.read_write_of_ne (h : Heap) (j : Nat) (d : List Nat) (i : Nat) (hij : i ≠ j) :
    (h.write j d).read i = h.read i := by
  simp [Heap.write, Heap.read, List.getD_eq_getD_get?, List.get?_eq_getElem?,
    List.getElem?_set_ne (fun he => hij he.symm)]

theorem Heap.read_write_self (h : Heap) (j : Nat) (d : List Nat) (hj : j < h.length) :
    (h.write j d).read j = d := by
  simp [Heap.write, Heap.read, List.getD_eq_getD_get?, List.get?_eq_getElem?,
    List.getElem?_set_eq_of_lt _ hj]

/-- Heap h2 agrees with h on every buffer index below n. -/
def Heap.PreservesFrom (h h2 : Heap) (n : Nat) : Prop :=
  ∀ i, i < n → h2.read i = h.read i

theorem Heap.preservesFrom_trans {h h2 h3 : Heap} {n : Nat}
    (a : h.PreservesFrom h2 n) (b : h2.PreservesFrom h3 n) : h.PreservesFrom h3 n :=
  fun i hi => (b i hi).trans (a i hi)

theorem Heap.preservesFrom_alloc (h : Heap) (d : List Nat) {n : Nat} (hn : n ≤ h.length) :
    h.PreservesFrom (h.alloc d) n :=
  fun i hi => Heap.read_alloc_of_lt h d i (lt_of_lt_of_le hi hn)

theorem Heap.preservesFrom_write (h : Heap) (j : Nat) (d : List Nat) {n : Nat} (hn : n ≤ j) :
    h.PreservesFrom (h.write j d) n :=
  fun i hi => Heap.read_write_of_ne h j d i (Nat.ne_of_lt (lt_of_lt_of_le hi hn))

theorem Heap.preservesFrom_alloc_of {h h2 : Heap} {n : Nat} (d : List Nat)
    (hn : n ≤ h2.length) (prev : h.PreservesFrom h2 n) : h.PreservesFrom (h2.alloc d) n :=
  Heap.preservesFrom_trans prev (Heap.preservesFrom_alloc h2 d hn)

theorem Heap.preservesFrom_write_of {h h2 : Heap} {n : Nat} (j : Nat) (d : List Nat)
    (hn : n ≤ j) (prev : h.PreservesFrom h2 n) : h.PreservesFrom (h2.write j d) n :=
  Heap.preservesFrom_trans prev (Heap.preservesFrom_write h2 j d hn)

set_option maxHeartbeats 1600000 in
theorem ImageDetectionPrediction.draw_preservesFrom (C : Collab) (h : Heap)
    (self : ImageDetectionPrediction) (bt : Option Nat) (sc : Bool)
    (cm : Option (List Color)) (tb : Option (List (List Rat))) (fmt : Option String)
    (tc : Option (List Int)) (cn : Option (List String)) :
    h.PreservesFrom (ImageDetectionPrediction.draw C h self bt sc cm tb fmt tc cn).2 h.length ∧
    h.length ≤ (ImageDetectionPrediction.draw C h self bt sc cm tb fmt tc cn).2.length := by
  simp only [ImageDetectionPrediction.draw]
  split_ifs with hinv hplot hfit
  all_goals refine ⟨?_, ?_⟩
  all_goals first
  | (simp only [Heap.length_alloc, Heap.length_write]; omega)
  | repeat
      first
      | exact Heap.preservesFrom_alloc _ _ le_rfl
      | refine Heap.preservesFrom_write_of _ _ le_rfl ?_
      | refine Heap.preservesFrom_alloc_of _
          (by simp only [Heap.length_alloc, Heap.length_write]; omega) ?_
      | refine Heap.preservesFrom_write_of _ _
          (by simp only [Heap.length_alloc, Heap.length_write]; omega) ?_

set_option maxHeartbeats 1600000 in
theorem ImageDetectionPrediction.draw_no_plot (C : Collab) (h : Heap)
    (self : ImageDetectionPrediction) (bt : Option Nat) (sc : Bool)
    (cm : Option (List Color)) (tb : Option (List (List Rat))) (fmt : Option String)
    (tc : Option (List Int)) (cn : Option (List String))
    (hv : ((listOr cn self.class_names).filter (fun n => decide (n ∉ self.class_names))).dedup = [])
    (hplot : ((if (tb.getD []).length ≠ 0 then
        C.convert_bboxes fmt self.prediction.image_shape (tb.getD []) else (tb.getD [])).any
        (fun tbbx => 0 < tbbx.length)) = false) :
    ImageDetectionPrediction.draw C h self bt sc cm tb fmt tc cn =
      (.ok ⟨self.image.height, self.image.width, self.image.channels, h.length⟩,
       (h.alloc (h.read self.image.buf)).write h.length
         (predBoxFold C.draw_bbox self.prediction self.class_names
           (classIdsToShow self.class_names (listOr cn self.class_names))
           (listOr cm (generate_color_mapping self.class_names.length)) bt sc
           (h.read self.image.buf))) := by
  simp only [ImageDetectionPrediction.draw, hv, hplot, List.length_nil, lt_self_iff_false,
    if_false, Bool.false_eq_true, Heap.read_alloc_self]

/-- Claim C2: for every ImagePrediction variant (classification, detection,
segmentation) and every argument combination, draw never mutates the
wrapper's stored image buffer: the buffer holding the original image reads
pixel-identically before and after any draw call, because drawing operates
only on a freshly allocated copy. -/
theorem claim_C2 (C : Collab) (h : Heap) :
    (∀ (self : ImageClassificationPrediction) (sc : Bool), self.image.buf < h.length →
      ((ImageClassificationPrediction.draw C h self sc).2).read self.image.buf
        = h.read self.image.buf) ∧
    (∀ (self : ImageDetectionPrediction) (bt : Option Nat) (sc : Bool)
      (cm : Option (List Color)) (tb : Option (List (List Rat))) (fmt : Option String)
      (tc : Option (List Int)) (cn : Option (List String)), self.image.buf < h.length →
      ((ImageDetectionPrediction.draw C h self bt sc cm tb fmt tc cn).2).read self.image.buf
        = h.read self.image.buf) ∧
    (∀ (self : ImageSegmentationPrediction) (alpha : Rat) (cm : Option (List Color))
      (cn : Option (List String)), self.image.buf < h.length →
      ((ImageSegmentationPrediction.draw C h self alpha cm cn).2).read self.image.buf
        = h.read self.image.buf) := by
  refine ⟨?_, ?_, ?_⟩
  · intro self sc hb
    simp only [ImageClassificationPrediction.draw]
    rw [Heap.read_write_of_ne _ _ _ _ (Nat.ne_of_lt hb), Heap.read_alloc_of_lt _ _ _ hb]
  · intro self bt sc cm tb fmt tc cn hb
    exact (ImageDetectionPrediction.draw_preservesFrom C h self bt sc cm tb fmt tc cn).1
      self.image.buf hb
  · intro self alpha cm cn hb
    simp only [ImageSegmentationPrediction.draw]
    rw [Heap.read_write_of_ne _ _ _ _ (Nat.ne_of_lt hb), Heap.read_alloc_of_lt _ _ _ hb]

/-- Identity instantiation of the external collaborators, used to evaluate
the embeddings on concrete inputs. -/
def idCollab : Collab :=
  { draw_bbox := fun _ d => d
    draw_label := fun _ _ d => d
    overlay_segmentation := fun _ _ _ _ _ d => d
    convert_bboxes := fun _ _ l => l
    putText := fun _ _ d => d }

/-- A one-buffer heap for concrete evaluations. -/
def heap1 : Heap := ⟨[[1, 2, 3]]⟩

/-- Concrete classification wrapper for witnesses. -/
def icp1 : ImageClassificationPrediction :=
  { image := ⟨1, 1, 3, 0⟩
    prediction := { label := 0, confidence := 1 / 2 }
    class_names := ["cat"] }

/-- Concrete detection wrapper for witnesses. -/
def idp1 : ImageDetectionPrediction :=
  { image := ⟨1, 1, 3, 0⟩
    prediction :=
      { bboxes_xyxy := [(0, 0, 1, 1)]
        labels := [0]
        confidence := [9 / 10]
        image_shape := (1, 1) }
    class_names := ["cat"] }

/-- Concrete segmentation wrapper for witnesses. -/
def isp1 : ImageSegmentationPrediction :=
  { image := ⟨1, 1, 3, 0⟩
    prediction := { segmentation_map := [[0]] }
    class_names := ["cat", "sky"] }

theorem claim_C2_witness :
    0 < heap1.length ∧
    ((ImageClassificationPrediction.draw idCollab heap1 icp1 true).2).read icp1.image.buf
      = heap1.read icp1.image.buf ∧
    ((ImageDetectionPrediction.draw idCollab heap1 idp1 none true none none none none
      none).2).read idp1.image.buf = heap1.read idp1.image.buf ∧
    ((ImageSegmentationPrediction.draw idCollab heap1 isp1 (6 / 10) none none).2).read
      isp1.image.buf = heap1.read isp1.image.buf :=
  ⟨by decide,
   (claim_C2 idCollab heap1).1 icp1 true (by decide),
   (claim_C2 idCollab heap1).2.1 idp1 none true none none none none none (by decide),
   (claim_C2 idCollab heap1).2.2 isp1 (6 / 10) none none (by decide)⟩

/-- Claim C10: for every image, classification prediction and vocabulary,
`ImageClassificationPrediction.draw` returns the same output for
`show_confidence = True` as for `show_confidence = False` (the flag is
accepted but never consulted), and the raw (unrounded) confidence is always
forwarded to the label-drawing collaborator. -/
theorem claim_C10 (C : Collab) (h : Heap) (self : ImageClassificationPrediction) :
    ImageClassificationPrediction.draw C h self true
      = ImageClassificationPrediction.draw C h self false ∧
    ((ImageClassificationPrediction.draw C h self true).2).read h.length
      = C.draw_label (self.class_names.getD self.prediction.label "")
          self.prediction.confidence (h.read self.image.buf) := by
  refine ⟨rfl, ?_⟩
  simp only [ImageClassificationPrediction.draw]
  rw [Heap.read_write_self _ _ _ (by simp only [Heap.length_alloc]; omega),
    Heap.read_alloc_self]

/-- Claim C4: for every detection draw call with a non-empty requested
class-name subset, if some requested name is missing from the model's
vocabulary then draw fails with the invalid-argument error whose invalid
list contains exactly the offending names, and if every requested name is
known no such error is raised. -/
theorem claim_C4 (C : Collab) (h : Heap) (self : ImageDetectionPrediction)
    (bt : Option Nat) (sc : Bool) (cm : Option (List Color))
    (tb : Option (List (List Rat))) (fmt : Option String) (tc : Option (List Int))
    (req : List String) (hreq : req ≠ []) :
    ((∃ n, n ∈ req ∧ n ∉ self.class_names) →
      (ImageDetectionPrediction.draw C h self bt sc cm tb fmt tc (some req)).1
        = .error (.invalidClassNames
            ((req.filter (fun n => decide (n ∉ self.class_names))).dedup) self.class_names) ∧
      ∀ n, n ∈ (req.filter (fun n => decide (n ∉ self.class_names))).dedup
        ↔ (n ∈ req ∧ n ∉ self.class_names)) ∧
    ((∀ n ∈ req, n ∈ self.class_names) →
      ∀ l a, (ImageDetectionPrediction.draw C h self bt sc cm tb fmt tc (some req)).1
        ≠ .error (.invalidClassNames l a)) := by
  have hor : listOr (some req) self.class_names = req := by
    cases req with
    | nil => exact absurd rfl hreq
    | cons a as => simp [listOr]
  constructor
  · rintro ⟨n, hn, hnv⟩
    have hmem : n ∈ (req.filter (fun n => decide (n ∉ self.class_names))).dedup :=
      List.mem_dedup.2 (List.mem_filter.2 ⟨hn, by simpa using hnv⟩)
    have hcond : 0 < ((req.filter (fun n => decide (n ∉ self.class_names))).dedup).length :=
      List.length_pos.2 (List.ne_nil_of_mem hmem)
    refine ⟨?_, ?_⟩
    · simp only [ImageDetectionPrediction.draw, hor]
      rw [if_pos hcond]
    · intro m
      simp [List.mem_dedup, List.mem_filter]
  · intro hall l a
    have hnil : (req.filter (fun n => decide (n ∉ self.class_names))).dedup = [] := by
      have : req.filter (fun n => decide (n ∉ self.class_names)) = [] :=
        List.filter_eq_nil_iff.2 (fun x hx => by simpa using hall x hx)
      rw [this, List.dedup_nil]
    simp only [ImageDetectionPrediction.draw, hor, hnil, List.length_nil, lt_self_iff_false,
      if_false]
    split_ifs <;> simp

/-- Concrete detection wrapper with a two-name vocabulary. -/
def idp2 : ImageDetectionPrediction :=
  { image := ⟨1, 1, 3, 0⟩
    prediction :=
      { bboxes_xyxy := [(0, 0, 1, 1)]
        labels := [0]
        confidence := [9 / 10]
        image_shape := (1, 1) }
    class_names := ["cat", "dog"] }

theorem claim_C4_witness :
    (["bird"] : List String) ≠ [] ∧
    (∃ n, n ∈ (["bird"] : List String) ∧ n ∉ idp2.class_names) ∧
    (ImageDetectionPrediction.draw idCollab heap1 idp2 none true none none none none
      (some ["bird"])).1 = .error (.invalidClassNames ["bird"] ["cat", "dog"]) := by
  refine ⟨by decide, ⟨"bird", by decide, by decide⟩, ?_⟩
  have hmain := (claim_C4 idCollab heap1 idp2 none true none none none none ["bird"]
    (by decide)).1 ⟨"bird", by decide, by decide⟩
  rw [hmain.1]
  rfl

/-- Accumulating a conditional step over a list is folding the unconditional
step over the filtered list. -/
theorem foldl_filter_decide {α : Type} (f : Nat → α → α) (P : Nat → Prop)
    [DecidablePred P] :
    ∀ (l : List Nat) (init : α),
      l.foldl (fun a i => if P i then f i a else a) init
        = (l.filter (fun i => decide (P i))).foldl (fun a i => f i a) init := by
  intro l
  induction l with
  | nil => intro init; rfl
  | cons a as ih =>
    intro init
    by_cases hP : P a <;> simp [hP, List.filter_cons, ih]

/-- Claim C6: for every detection draw call, predicted boxes are handed to
the box-drawing collaborator exactly along `predCallIdx` (the
ascending-confidence order restricted to displayed class ids), that order
is ascending in confidence, and every box whose class id is not in the
display subset is skipped. -/
theorem claim_C6 (α : Type) (drawB : BBoxCall → α → α) (p : DetectionPrediction)
    (classNames : List String) (ids : List Int) (cmap : List Color)
    (bt : Option Nat) (sc : Bool) (init : α) :
    predBoxFold drawB p classNames ids cmap bt sc init
      = (predCallIdx p ids).foldl
          (fun image i => drawB (mkPredCall p classNames cmap bt sc i (p.labels.getD i 0)) image)
          init ∧
    (predCallIdx p ids).Pairwise (fun i j => p.confidence.getD i 0 ≤ p.confidence.getD j 0) ∧
    ∀ i, i ∈ predCallIdx p ids → p.labels.getD i 0 ∈ ids := by
  refine ⟨?_, ?_, ?_⟩
  · exact foldl_filter_decide
      (fun i a => drawB (mkPredCall p classNames cmap bt sc i (p.labels.getD i 0)) a)
      (fun i => p.labels.getD i 0 ∈ ids) (argsort p.confidence) init
  · have hs : List.Sorted (fun i j => p.confidence.getD i 0 ≤ p.confidence.getD j 0)
        (argsort p.confidence) := by
      haveI : IsTotal Nat (fun i j => p.confidence.getD i 0 ≤ p.confidence.getD j 0) :=
        ⟨fun a b => le_total _ _⟩
      haveI : IsTrans Nat (fun i j => p.confidence.getD i 0 ≤ p.confidence.getD j 0) :=
        ⟨fun a b c => le_trans⟩
      exact List.sorted_insertionSort _ _
    exact List.Pairwise.sublist (List.filter_sublist _) hs
  · intro i hi
    have := (List.mem_filter.1 hi).2
    simpa using this

/-- Concrete detection prediction with two boxes of distinct confidences. -/
def dp2 : DetectionPrediction :=
  { bboxes_xyxy := [(0, 0, 2, 2), (1, 1, 3, 3)]
    labels := [0, 1]
    confidence := [2, 1]
    image_shape := (4, 4) }

theorem claim_C6_witness :
    (0 ∈ predCallIdx dp2 [0]) ∧ dp2.labels.getD 0 0 ∈ ([0] : List Int) :=
  ⟨by decide,
   (claim_C6 (List BBoxCall) (fun c l => l ++ [c]) dp2 ["cat", "dog"] [0] [] none true
     []).2.2 0 (by decide)⟩

set_option maxHeartbeats 1600000 in
/-- Claim C5: for every detection draw call, if the ground-truth boxes are
absent or empty the box-format conversion collaborator is never consulted
(pass-through), and if they are absent, empty, or non-empty with every
per-image entry empty, draw returns only the predictions image (the copy
with predicted boxes drawn), with no canvas composition applied. -/
theorem claim_C5 (C : Collab) (h : Heap) (self : ImageDetectionPrediction)
    (bt : Option Nat) (sc : Bool) (cm : Option (List Color))
    (tb : Option (List (List Rat))) (fmt : Option String) (tc : Option (List Int))
    (cn : Option (List String)) :
    ((tb = none ∨ tb = some []) → ∀ g,
      ImageDetectionPrediction.draw C h self bt sc cm tb fmt tc cn
        = ImageDetectionPrediction.draw { C with convert_bboxes := g } h self bt sc cm
            tb fmt tc cn) ∧
    (((listOr cn self.class_names).filter (fun n => decide (n ∉ self.class_names))).dedup = [] →
     (∀ f s (l2 : List (List Rat)), (C.convert_bboxes f s l2).length = l2.length ∧
        ∀ i, ((C.convert_bboxes f s l2).getD i []).length = (l2.getD i []).length) →
     (tb = none ∨ tb = some [] ∨ (∃ l, tb = some l ∧ ∀ e ∈ l, e = [])) →
      ImageDetectionPrediction.draw C h self bt sc cm tb fmt tc cn
        = (.ok ⟨self.image.height, self.image.width, self.image.channels, h.length⟩,
           (h.alloc (h.read self.image.buf)).write h.length
             (predBoxFold C.draw_bbox self.prediction self.class_names
               (classIdsToShow self.class_names (listOr cn self.class_names))
               (listOr cm (generate_color_mapping self.class_names.length)) bt sc
               (h.read self.image.buf)))) := by
  constructor
  · intro htb g
    have h0 : tb.getD [] = [] := by rcases htb with rfl | rfl <;> rfl
    simp only [ImageDetectionPrediction.draw, h0, List.length_nil, ne_eq]
    norm_num
  · intro hv hshape hempty
    apply ImageDetectionPrediction.draw_no_plot C h self bt sc cm tb fmt tc cn hv
    rcases hempty with rfl | rfl | ⟨l, rfl, hle⟩
    · simp
    · simp
    · simp only [Option.getD_some]
      rcases Nat.eq_zero_or_pos l.length with hl | hl
      · have : l = [] := List.length_eq_zero.1 hl
        subst this; simp
      · rw [if_pos (by omega)]
        apply List.any_eq_false.2
        intro x hx
        obtain ⟨j, hj, hxe⟩ := List.mem_iff_getElem.1 hx
        have hlen := (hshape fmt self.prediction.image_shape l).1
        have hjl : j < l.length := by rw [← hlen]; exact hj
        have hxmem : l.getD j [] ∈ l := by
          rw [List.getD_eq_getElem _ _ hjl]
          exact List.getElem_mem _
        have hxnil : l.getD j [] = [] := hle _ hxmem
        have h2 := (hshape fmt self.prediction.image_shape l).2 j
        rw [hxnil] at h2
        have hxlen : x.length = 0 := by
          rw [List.getD_eq_getElem _ _ hj, hxe] at h2
          simpa using h2
        simp [hxlen]

theorem claim_C5_witness :
    (((listOr none idp1.class_names).filter
      (fun n => decide (n ∉ idp1.class_names))).dedup = []) ∧
    (some ([] : List (List Rat)) = none ∨ some ([] : List (List Rat)) = some []) ∧
    ImageDetectionPrediction.draw idCollab heap1 idp1 none true none (some []) none none none
      = ImageDetectionPrediction.draw
          { idCollab with convert_bboxes := fun _ _ _ => [[5]] } heap1 idp1 none true none
          (some []) none none none ∧
    ImageDetectionPrediction.draw idCollab heap1 idp1 none true none (some [[], []]) none
        none none
      = (.ok ⟨idp1.image.height, idp1.image.width, idp1.image.channels, heap1.length⟩,
         (heap1.alloc (heap1.read idp1.image.buf)).write heap1.length
           (predBoxFold idCollab.draw_bbox idp1.prediction idp1.class_names
             (classIdsToShow idp1.class_names (listOr none idp1.class_names))
             (listOr none (generate_color_mapping idp1.class_names.length)) none true
             (heap1.read idp1.image.buf))) :=
  ⟨by decide, Or.inr rfl,
   (claim_C5 idCollab heap1 idp1 none true none (some []) none none none).1
     (Or.inr rfl) (fun _ _ _ => [[5]]),
   (claim_C5 idCollab heap1 idp1 none true none (some [[], []]) none none none).2
     (by decide) (fun f s l2 => ⟨rfl, fun i => rfl⟩)
     (Or.inr (Or.inr ⟨[[], []], rfl, by decide⟩))⟩

set_option maxHeartbeats 1600000 in
/-- Claim C7: for every detection draw call where ground truth is present
and non-empty, a successfully returned side-by-side composition on an input
image of height h, width w and c channels has height int(h + h/8), width
2 * int(w + w/20) and c channels. -/
theorem claim_C7 (C : Collab) (h : Heap) (self : ImageDetectionPrediction)
    (bt : Option Nat) (sc : Bool) (cm : Option (List Color)) (fmt : Option String)
    (tc : Option (List Int)) (cn : Option (List String)) (l : List (List Rat)) (img : HImg)
    (hshape : ∀ f s (l2 : List (List Rat)), (C.convert_bboxes f s l2).length = l2.length ∧
        ∀ i, ((C.convert_bboxes f s l2).getD i []).length = (l2.getD i []).length)
    (hne : ∃ e ∈ l, e ≠ [])
    (hok : (ImageDetectionPrediction.draw C h self bt sc cm (some l) fmt tc cn).1 = .ok img) :
    img.height = self.image.height + self.image.height / 8 ∧
    img.width = 2 * (self.image.width + self.image.width / 20) ∧
    img.channels = self.image.channels := by
  obtain ⟨e, hel, hene⟩ := hne
  have hlne : l.length ≠ 0 := by
    intro h0
    rw [List.length_eq_zero.1 h0] at hel
    simp at hel
  obtain ⟨j, hj, hje⟩ := List.mem_iff_getElem.1 hel
  have hlen := (hshape fmt self.prediction.image_shape l).1
  have hj2 : j < (C.convert_bboxes fmt self.prediction.image_shape l).length := by
    rw [hlen]; exact hj
  have hent := (hshape fmt self.prediction.image_shape l).2 j
  have hany : (C.convert_bboxes fmt self.prediction.image_shape l).any
      (fun tbbx => 0 < tbbx.length) = true := by
    apply List.any_eq_true.2
    refine ⟨(C.convert_bboxes fmt self.prediction.image_shape l).getD j [], ?_, ?_⟩
    · rw [List.getD_eq_getElem _ _ hj2]
      exact List.getElem_mem _
    · rw [hent, List.getD_eq_getElem _ _ hj, hje]
      simpa using List.length_pos.2 hene
  simp only [ImageDetectionPrediction.draw, Option.getD_some] at hok
  rw [if_pos hlne, hany] at hok
  simp only [eq_self_iff_true, if_true] at hok
  split_ifs at hok with hc1 hc2
  simp only [Except.ok.injEq] at hok
  subst hok
  refine ⟨rfl, ?_, rfl⟩
  show self.image.width + self.image.width / 20 + (self.image.width + self.image.width / 20)
    = 2 * (self.image.width + self.image.width / 20)
  omega

/-- Concrete detection wrapper whose image is large enough for the canvas
paste to fit (480 x 200, zero channels so the pixel data is empty). -/
def idp3 : ImageDetectionPrediction :=
  { image := ⟨480, 200, 0, 0⟩
    prediction := { bboxes_xyxy := [], labels := [], confidence := [], image_shape := (480, 200) }
    class_names := ["cat"] }

theorem claim_C7_witness :
    (∃ e ∈ ([[(0 : Rat), 0, 1, 1]] : List (List Rat)), e ≠ []) ∧
    (ImageDetectionPrediction.draw idCollab heap1 idp3 none true none
        (some [[0, 0, 1, 1]]) (some "xyxy") (some [0]) none).1 = .ok ⟨540, 420, 0, 5⟩ ∧
    (540 : Nat) = idp3.image.height + idp3.image.height / 8 ∧
    (420 : Nat) = 2 * (idp3.image.width + idp3.image.width / 20) :=
  have hshape : ∀ f s (l2 : List (List Rat)),
      (idCollab.convert_bboxes f s l2).length = l2.length ∧
      ∀ i, ((idCollab.convert_bboxes f s l2).getD i []).length = (l2.getD i []).length :=
    fun f s l2 => ⟨rfl, fun i => rfl⟩
  have hne : ∃ e ∈ ([[(0 : Rat), 0, 1, 1]] : List (List Rat)), e ≠ [] :=
    ⟨[0, 0, 1, 1], by decide, by decide⟩
  have hok : (ImageDetectionPrediction.draw idCollab heap1 idp3 none true none
      (some [[0, 0, 1, 1]]) (some "xyxy") (some [0]) none).1 = .ok ⟨540, 420, 0, 5⟩ := rfl
  ⟨hne, hok,
   (claim_C7 idCollab heap1 idp3 none true none (some "xyxy") (some [0]) none
     [[0, 0, 1, 1]] ⟨540, 420, 0, 5⟩ hshape hne hok).1,
   (claim_C7 idCollab heap1 idp3 none true none (some "xyxy") (some [0]) none
     [[0, 0, 1, 1]] ⟨540, 420, 0, 5⟩ hshape hne hok).2.1⟩

/-- Concrete segmentation wrapper with a single-name vocabulary. -/
def ispFg : ImageSegmentationPrediction :=
  { image := ⟨1, 1, 1, 0⟩
    prediction := { segmentation_map := [[0]] }
    class_names := ["foreground"] }

/-- Claim C8 counterexample: with the single-class vocabulary "foreground"
and a supplied one-color mapping, the overlay is composed with 2 classes
("background" prepended) but the color mapping handed to the overlay
collaborator has exactly 1 color, not 2: the supplied mapping is passed
through unchanged instead of being regenerated for 2 classes. -/
theorem claim_C8_counterexample :
    resolvedSegClassNames none ["foreground"] = ["background", "foreground"] ∧
    resolvedSegColors (some [(7, 7, 7)]) (resolvedSegClassNames none ["foreground"])
      = [(7, 7, 7)] ∧
    ([((7 : Nat), (7 : Nat), (7 : Nat))].length ≠ 2) ∧
    ((ImageSegmentationPrediction.draw
        { idCollab with overlay_segmentation := fun nc _ colors _ _ _ => [nc, colors.length] }
        heap1 ispFg 1 (some [(7, 7, 7)]) none).2).read heap1.length = [2, 1] :=
  ⟨rfl, rfl, by decide, rfl⟩

/-- Claim C8 (amended): when the effective class-name list (the supplied
subset, or else the vocabulary) has exactly one entry, a synthetic
"background" class is prepended, so the overlay collaborator is invoked
with exactly 2 classes; the auto-generated color mapping (used when none,
or an empty one, is supplied) then has exactly 2 colors, while a supplied
non-empty color mapping is passed through unchanged; with any other class
count the list is passed through unchanged. -/
theorem claim_C8 (C : Collab) (h : Heap) (self : ImageSegmentationPrediction)
    (alpha : Rat) (cmA : Option (List Color)) (cnA : Option (List String))
    (h1 : (listOr cnA self.class_names).length = 1) :
    resolvedSegClassNames cnA self.class_names
      = "background" :: listOr cnA self.class_names ∧
    (resolvedSegClassNames cnA self.class_names).length = 2 ∧
    ((cmA = none ∨ cmA = some []) →
      (resolvedSegColors cmA (resolvedSegClassNames cnA self.class_names)).length = 2) ∧
    ((ImageSegmentationPrediction.draw C h self alpha cmA cnA).2).read h.length
      = C.overlay_segmentation 2 alpha
          (resolvedSegColors cmA (resolvedSegClassNames cnA self.class_names))
          (resolvedSegClassNames cnA self.class_names)
          self.prediction.segmentation_map (h.read self.image.buf) ∧
    (∀ (cn2 : Option (List String)) (vocab2 : List String),
      (listOr cn2 vocab2).length ≠ 1 → resolvedSegClassNames cn2 vocab2 = listOr cn2 vocab2) := by
  have hr : resolvedSegClassNames cnA self.class_names
      = "background" :: listOr cnA self.class_names := by
    simp [resolvedSegClassNames, h1]
  have h2 : (resolvedSegClassNames cnA self.class_names).length = 2 := by
    rw [hr]
    simp [h1]
  refine ⟨hr, h2, ?_, ?_, ?_⟩
  · rintro (rfl | rfl) <;>
      simp [resolvedSegColors, listOr, generate_color_mapping, h2]
  · simp only [ImageSegmentationPrediction.draw]
    rw [Heap.read_write_self _ _ _ (by simp only [Heap.length_alloc]; omega),
      Heap.read_alloc_self, h2]
  · intro cn2 vocab2 hne2
    simp [resolvedSegClassNames, hne2]

theorem claim_C8_witness :
    (listOr none ispFg.class_names).length = 1 ∧
    resolvedSegClassNames none ispFg.class_names
      = "background" :: listOr none ispFg.class_names ∧
    (resolvedSegColors none (resolvedSegClassNames none ispFg.class_names)).length = 2 :=
  ⟨by decide,
   (claim_C8 idCollab heap1 ispFg 1 none none (by decide)).1,
   (claim_C8 idCollab heap1 ispFg 1 none none (by decide)).2.2.1 (Or.inl rfl)⟩

/-- Length of a ground-truth argument after the single-array
normalization (0 when the argument is unset). -/
def normalizedLen {α : Type} (x : Option (NpArg α)) : Nat :=
  match x with
  | some a => a.normalize.length
  | none => 0

/-- Claim C3: `_check_target_args` fails exactly when the three
ground-truth arguments are partially specified, or (all set) the
normalized box and class-id sequences have different lengths, or (all set)
the normalized box sequence length differs from the number of images; when
all three are unset it returns parallel per-image None placeholders of
length equal to the image count. -/
theorem claim_C3 (self : ImagesDetectionPrediction)
    (tb : Option (NpArg (List (List Rat)))) (fmt : Option String)
    (tc : Option (NpArg (List Int))) :
    ((∃ e, self._check_target_args tb fmt tc = .error e) ↔
      (¬ ((tb = none ∧ fmt = none ∧ tc = none) ∨ (tb ≠ none ∧ fmt ≠ none ∧ tc ≠ none))
        ∨ ((tb ≠ none ∧ fmt ≠ none ∧ tc ≠ none) ∧ normalizedLen tb ≠ normalizedLen tc)
        ∨ ((tb ≠ none ∧ fmt ≠ none ∧ tc ≠ none)
            ∧ normalizedLen tb ≠ self._images_prediction_lst.length))) ∧
    (tb = none → fmt = none → tc = none →
      self._check_target_args tb fmt tc
        = .ok (List.replicate self._images_prediction_lst.length none,
               List.replicate self._images_prediction_lst.length none)) := by
  constructor
  · rcases tb with _ | a <;> rcases fmt with _ | f <;> rcases tc with _ | c <;>
      simp [ImagesDetectionPrediction._check_target_args, normalizedLen]
    · by_cases h1 : a.normalize.length = c.normalize.length
      · by_cases h2 : c.normalize.length = self._images_prediction_lst.length <;>
          simp [h1, h2]
      · simp [h1]
  · rintro rfl rfl rfl
    simp [ImagesDetectionPrediction._check_target_args]

theorem claim_C3_witness :
    ImagesDetectionPrediction._check_target_args ⟨[idp1, idp2]⟩ none none none
      = .ok ([none, none], [none, none]) := by
  have := (claim_C3 ⟨[idp1, idp2]⟩ none none none).2 rfl rfl rfl
  simpa using this

/-- Claim C1 (code evaluation at the failing input): on a one-image
collection with all three ground-truth arguments supplied, `show` forwards
the per-image ground-truth boxes to the delegated single-item call, but
`save` — after validating and zipping the very same ground truth — delegates
with no target arguments at all, so the per-image save receives None. -/
theorem claim_C1_save_drops_ground_truth :
    (ImagesDetectionPrediction.show ⟨[idp1]⟩ none true none
        (some (.arr [[0, 0, 1, 1]])) (some "xyxy") (some (.arr [0])) none).map
        (fun calls => calls.map (fun call => call.target_bboxes))
      = .ok [some [[0, 0, 1, 1]]] ∧
    (ImagesDetectionPrediction.save ⟨[idp1]⟩ "out" none true none
        (some (.arr [[0, 0, 1, 1]])) (some "xyxy") (some (.arr [0])) none).map
        (fun calls => calls.map (fun call => call.target_bboxes))
      = .ok [none] :=
  ⟨rfl, rfl⟩

theorem Heap.preservesFrom_mono {h h2 : Heap} {m n : Nat} (hmn : m ≤ n)
    (hp : h.PreservesFrom h2 n) : h.PreservesFrom h2 m :=
  fun i hi => hp i (lt_of_lt_of_le hi hmn)

theorem filter_not_mem_self_dedup (l : List String) :
    ((l.filter (fun n => decide (n ∉ l))).dedup) = [] := by
  have : l.filter (fun n => decide (n ∉ l)) = [] :=
    List.filter_eq_nil_iff.2 (fun x hx => by simp [hx])
  rw [this, List.dedup_nil]

/-- With no ground truth and no class-name subset, the per-image detection
draw always succeeds: it returns the copy of the image with the prediction
boxes drawn onto it. -/
theorem ImageDetectionPrediction.draw_defaults (C : Collab) (h : Heap)
    (self : ImageDetectionPrediction) (bt : Option Nat) (sc : Bool)
    (cm : Option (List Color)) :
    ImageDetectionPrediction.draw C h self bt sc cm none none none none =
      (.ok ⟨self.image.height, self.image.width, self.image.channels, h.length⟩,
       (h.alloc (h.read self.image.buf)).write h.length
         (predBoxFold C.draw_bbox self.prediction self.class_names
           (classIdsToShow self.class_names (listOr none self.class_names))
           (listOr cm (generate_color_mapping self.class_names.length)) bt sc
           (h.read self.image.buf))) :=
  ImageDetectionPrediction.draw_no_plot C h self bt sc cm none none none none
    (filter_not_mem_self_dedup self.class_names) (by simp)

/-- Default image value for indexed access to frame lists. -/
def dfltHImg : HImg := ⟨0, 0, 0, 0⟩

/-- Default detection wrapper value for indexed access. -/
def dfltIDP : ImageDetectionPrediction :=
  ⟨⟨0, 0, 0, 0⟩, ⟨[], [], [], (0, 0)⟩, []⟩

theorem videoDrawLoop_defaults (C : Collab) (bt : Option Nat) (sc : Bool)
    (cm : Option (List Color)) :
    ∀ (gen : List ImageDetectionPrediction) (h : Heap),
      (∀ p ∈ gen, p.image.buf < h.length) →
      ∃ frames h2,
        videoDrawLoop C bt sc cm none gen h = (.ok frames, h2, []) ∧
        frames.length = gen.length ∧
        h.length ≤ h2.length ∧ h.PreservesFrom h2 h.length ∧
        ∀ i, i < gen.length →
          (frames.getD i dfltHImg).height = (gen.getD i dfltIDP).image.height ∧
          (frames.getD i dfltHImg).width = (gen.getD i dfltIDP).image.width ∧
          (frames.getD i dfltHImg).channels = (gen.getD i dfltIDP).image.channels ∧
          h2.read (frames.getD i dfltHImg).buf
            = predBoxFold C.draw_bbox (gen.getD i dfltIDP).prediction
                (gen.getD i dfltIDP).class_names
                (classIdsToShow (gen.getD i dfltIDP).class_names
                  (listOr none (gen.getD i dfltIDP).class_names))
                (listOr cm (generate_color_mapping (gen.getD i dfltIDP).class_names.length))
                bt sc (h.read (gen.getD i dfltIDP).image.buf) := by
  intro gen
  induction gen with
  | nil =>
    intro h hb
    exact ⟨[], h, rfl, rfl, le_rfl, fun i hi => rfl, fun i hi => absurd hi (by simp)⟩
  | cons p rest ih =>
    intro h hb
    have hp : p.image.buf < h.length := hb p (List.mem_cons_self p rest)
    have hd := ImageDetectionPrediction.draw_defaults C h p bt sc cm
    set h1 : Heap := (h.alloc (h.read p.image.buf)).write h.length
      (predBoxFold C.draw_bbox p.prediction p.class_names
        (classIdsToShow p.class_names (listOr none p.class_names))
        (listOr cm (generate_color_mapping p.class_names.length)) bt sc
        (h.read p.image.buf)) with hh1
    have hlen1 : h1.length = h.length + 1 := by
      rw [hh1]
      simp only [Heap.length_write, Heap.length_alloc]
    have hpres1 : h.PreservesFrom h1 h.length := by
      rw [hh1]
      exact Heap.preservesFrom_write_of _ _ le_rfl (Heap.preservesFrom_alloc _ _ le_rfl)
    have hread1 : h1.read h.length
        = predBoxFold C.draw_bbox p.prediction p.class_names
            (classIdsToShow p.class_names (listOr none p.class_names))
            (listOr cm (generate_color_mapping p.class_names.length)) bt sc
            (h.read p.image.buf) := by
      rw [hh1]
      exact Heap.read_write_self _ _ _ (by simp only [Heap.length_alloc]; omega)
    have hb1 : ∀ q ∈ rest, q.image.buf < h1.length := by
      intro q hq
      have := hb q (List.mem_cons_of_mem p hq)
      omega
    obtain ⟨frames, h2, hloop, hflen, hle, hpres, hvals⟩ := ih h1 hb1
    refine ⟨⟨p.image.height, p.image.width, p.image.channels, h.length⟩ :: frames, h2, ?_,
      by simp [hflen], by omega, ?_, ?_⟩
    · simp only [videoDrawLoop, hd, hloop]
    · exact Heap.preservesFrom_trans hpres1
        (Heap.preservesFrom_mono (by omega) hpres)
    · intro i hi
      cases i with
      | zero =>
        refine ⟨rfl, rfl, rfl, ?_⟩
        show h2.read h.length = _
        have : h2.read h.length = h1.read h.length := hpres h.length (by omega)
        rw [this, hread1]
        rfl
      | succ j =>
        have hj : j < rest.length := by simpa using hi
        have hv := hvals j hj
        have hgd : ((p :: rest).getD (j + 1) dfltIDP) = rest.getD j dfltIDP := rfl
        have hfd : ((⟨p.image.height, p.image.width, p.image.channels, h.length⟩ : HImg)
            :: frames).getD (j + 1) dfltHImg = frames.getD j dfltHImg := rfl
        rw [hgd, hfd]
        refine ⟨hv.1, hv.2.1, hv.2.2.1, ?_⟩
        rw [hv.2.2.2]
        have hq : (rest.getD j dfltIDP).image.buf < h.length := by
          have hmem : rest.getD j dfltIDP ∈ rest := by
            rw [List.getD_eq_getElem _ _ hj]
            exact List.getElem_mem _
          exact hb _ (List.mem_cons_of_mem p hmem)
        rw [hpres1 _ hq]

/-- Claim C9: consuming VideoDetectionPrediction.draw on a single-pass
source of exactly n_frames elements yields exactly n_frames rendered
frames, one per source element in source order (each frame has the shape
of its source element and holds that element's prediction rendering), and
the source is then exhausted: a second full iteration yields zero
frames. -/
theorem claim_C9 (C : Collab) (h : Heap) (self : VideoDetectionPrediction)
    (bt : Option Nat) (sc : Bool) (cm : Option (List Color))
    (hn : self._images_prediction_gen.length = self.n_frames)
    (hb : ∀ p ∈ self._images_prediction_gen, p.image.buf < h.length) :
    ∃ frames h2,
      VideoDetectionPrediction.draw C h self bt sc cm none
        = (.ok frames, h2, { self with _images_prediction_gen := [] }) ∧
      frames.length = self.n_frames ∧
      (∀ i, i < self.n_frames →
        (frames.getD i dfltHImg).height
          = (self._images_prediction_gen.getD i dfltIDP).image.height ∧
        (frames.getD i dfltHImg).width
          = (self._images_prediction_gen.getD i dfltIDP).image.width ∧
        (frames.getD i dfltHImg).channels
          = (self._images_prediction_gen.getD i dfltIDP).image.channels ∧
        h2.read (frames.getD i dfltHImg).buf
          = predBoxFold C.draw_bbox (self._images_prediction_gen.getD i dfltIDP).prediction
              (self._images_prediction_gen.getD i dfltIDP).class_names
              (classIdsToShow (self._images_prediction_gen.getD i dfltIDP).class_names
                (listOr none (self._images_prediction_gen.getD i dfltIDP).class_names))
              (listOr cm (generate_color_mapping
                (self._images_prediction_gen.getD i dfltIDP).class_names.length)) bt sc
              (h.read (self._images_prediction_gen.getD i dfltIDP).image.buf)) ∧
      (VideoDetectionPrediction.draw C h2 { self with _images_prediction_gen := [] }
        bt sc cm none).1 = .ok [] := by
  obtain ⟨frames, h2, hloop, hflen, hle, hpres, hvals⟩ :=
    videoDrawLoop_defaults C bt sc cm self._images_prediction_gen h hb
  refine ⟨frames, h2, ?_, by omega, ?_, ?_⟩
  · simp only [VideoDetectionPrediction.draw, hloop]
  · intro i hi
    exact hvals i (by omega)
  · simp only [VideoDetectionPrediction.draw, videoDrawLoop]

/-- Concrete one-frame video wrapper. -/
def video1 : VideoDetectionPrediction := ⟨[idp1], 30, 1⟩

theorem claim_C9_witness :
    video1._images_prediction_gen.length = video1.n_frames ∧
    (∀ p ∈ video1._images_prediction_gen, p.image.buf < heap1.length) ∧
    ∃ frames h2,
      VideoDetectionPrediction.draw idCollab heap1 video1 none true none none
        = (.ok frames, h2, { video1 with _images_prediction_gen := [] }) ∧
      frames.length = video1.n_frames ∧
      (VideoDetectionPrediction.draw idCollab h2
        { video1 with _images_prediction_gen := [] } none true none none).1 = .ok [] := by
  have hb : ∀ p ∈ video1._images_prediction_gen, p.image.buf < heap1.length := by
    intro p hp
    have : p = idp1 := by simpa [video1] using hp
    rw [this]
    decide
  refine ⟨rfl, hb, ?_⟩
  obtain ⟨frames, h2, e1, e2, e3, e4⟩ :=
    claim_C9 idCollab heap1 video1 none true none rfl hb
  exact ⟨frames, h2, e1, e2, e4⟩
